import Mathlib

/-!
Verification development for the asynchronous sample-library loading server
(`sample_library_server.cpp`).  The definitions below are a shallow embedding
of the server's data model and of the operations the orchestrator, the decode
jobs and the client API perform on it.  Atomic scalars are modelled as plain
fields (every claim is about the value sequence of a single location, whose
transitions the source linearizes via compare-exchange), fallible code returns
`Option`, and code paths guarded by `PanicIfReached()` map to `none`.
-/

/-- Loading state of a `ListedAudioData` entry (enum `LoadingState` in the
source; the misspelling `CompletedSucessfully` is the source's). -/
inductive LoadingState where
  | PendingLoad
  | Loading
  | CompletedSucessfully
  | CompletedWithError
  | PendingCancel
  | CompletedCancelled
  deriving DecidableEq, Repr, Inhabited, Fintype

/-- A decoded-audio cache entry (`ListedAudioData`): identified by
(library name, file path), with an atomic reference count and loading state.
The decoded buffer itself is out of scope (black-box decoder). -/
structure ListedAudioData where
  library_name : String
  path : String
  refs : Nat
  state : LoadingState
  deriving DecidableEq, Repr

instance : Inhabited ListedAudioData :=
  ⟨{ library_name := "", path := "", refs := 0, state := .PendingLoad }⟩

/-- First phase of the decode job dispatched by `LoadAudioAsync`: the
compare-exchange loop that either claims the entry for decoding
(`PendingLoad → Loading`) or honours a pending cancellation
(`PendingCancel → CompletedCancelled`); any other state hits
`PanicIfReached()` (modelled as `none`). -/
def LoadAudioAsyncStart : LoadingState → Option LoadingState
  | .PendingLoad => some .Loading
  | .PendingCancel => some .CompletedCancelled
  | _ => none

/-- Second phase of the decode job: after decoding, the job stores
`CompletedSucessfully` or `CompletedWithError`.  The source asserts the state
is `Loading` at this point (line `ASSERT(audio_data.state.Load() ==
LoadingState::Loading)`), so other states map to `none`. -/
def LoadAudioAsyncFinish (succeeded : Bool) : LoadingState → Option LoadingState
  | .Loading => some (if succeeded then .CompletedSucessfully else .CompletedWithError)
  | _ => none

/-- State component of `TriggerReloadIfAudioIsCancelled`: a strong
compare-exchange `PendingCancel → PendingLoad`; failing that, if the state was
`CompletedCancelled` it is stored back to `PendingLoad` and a new decode job
is dispatched.  Returns the new state and how many decode jobs were
dispatched. -/
def TriggerReloadIfAudioIsCancelled : LoadingState → LoadingState × Nat
  | .PendingCancel => (.PendingLoad, 0)
  | .CompletedCancelled => (.PendingLoad, 1)
  | s => (s, 0)

/-- State component of `CancelLoadingAudioForInstrumentIfPossible` for one
entry: a strong compare-exchange `PendingLoad → PendingCancel` (any other
state is left as-is). -/
def CancelAudioAttempt : LoadingState → LoadingState
  | .PendingLoad => .PendingCancel
  | s => s

/-- Every write the source performs on a `ListedAudioData.state` field,
as one labelled operation. -/
inductive AudioStateOp where
  | jobStart
  | jobFinish (succeeded : Bool)
  | triggerReload
  | cancelAttempt
  deriving DecidableEq, Repr, Fintype

/-- The (partial) effect of each operation on the state field. -/
def applyAudioStateOp : AudioStateOp → LoadingState → Option LoadingState
  | .jobStart, s => LoadAudioAsyncStart s
  | .jobFinish ok, s => LoadAudioAsyncFinish ok s
  | .triggerReload, s => some (TriggerReloadIfAudioIsCancelled s).1
  | .cancelAttempt, s => some (CancelAudioAttempt s)

/-- The transition diagram the claim (and the spec's state machine) allows. -/
def claimedAudioTransition : LoadingState → LoadingState → Bool
  | .PendingLoad, .Loading => true
  | .Loading, .CompletedSucessfully => true
  | .Loading, .CompletedWithError => true
  | .PendingLoad, .PendingCancel => true
  | .PendingCancel, .CompletedCancelled => true
  | .CompletedCancelled, .PendingLoad => true
  | .PendingCancel, .PendingLoad => true
  | _, _ => false

/-- The per-entry cancellation body of
`CancelLoadingAudioForInstrumentIfPossible`: entries whose reference count is
exactly 1 get the `PendingLoad → PendingCancel` compare-exchange; every other
entry is untouched. -/
def CancelInstrumentAudioEntry (d : ListedAudioData) : ListedAudioData :=
  if d.refs = 1 then { d with state := CancelAudioAttempt d.state } else d

/-- `CancelLoadingAudioForInstrumentIfPossible` over the instrument's
(pointer-distinct) `audio_data_set`. -/
def CancelLoadingAudioForInstrumentIfPossible (audio_data_set : List ListedAudioData) :
    List ListedAudioData :=
  audio_data_set.map CancelInstrumentAudioEntry

/-- C2: every state transition actually performed on a `ListedAudioData`
entry (by the decode job's CAS loop and final store, by the
cancellation-reversal of `TriggerReloadIfAudioIsCancelled`, and by the
cancellation attempt) that changes the state moves it along one of the seven
edges of the claimed diagram. -/
theorem audio_state_transitions_follow_diagram
    (op : AudioStateOp) (s s' : LoadingState)
    (h : applyAudioStateOp op s = some s') (hne : s' ≠ s) :
    claimedAudioTransition s s' = true := by
  revert op s s' h hne
  decide

/-- Witness for C2: the decode job's claim transition
`PendingLoad → Loading` is a concrete instance of the theorem. -/
theorem audio_state_transitions_follow_diagram_witness :
    applyAudioStateOp .jobStart .PendingLoad = some .Loading ∧
      claimedAudioTransition .PendingLoad .Loading = true :=
  ⟨by decide,
   audio_state_transitions_follow_diagram .jobStart .PendingLoad .Loading
     (by decide) (by decide)⟩

/-- C5: the cancellation pass attempts `PendingLoad → PendingCancel` exactly
on entries with reference count 1: a ref count greater than 1 leaves the
entry completely unchanged, a refs-1 entry in `PendingLoad` moves to
`PendingCancel` (refs and identity untouched), and a refs-1 entry in any
other state keeps that state. -/
theorem cancel_instrument_audio_spec
    (set : List ListedAudioData) (d : ListedAudioData) (hd : d ∈ set) :
    ∃ d' ∈ CancelLoadingAudioForInstrumentIfPossible set,
      (1 < d.refs → d' = d) ∧
      (d.refs = 1 ∧ d.state = .PendingLoad →
        d' = { d with state := .PendingCancel }) ∧
      (d.refs = 1 ∧ d.state ≠ .PendingLoad → d' = d) := by
  refine ⟨CancelInstrumentAudioEntry d,
    List.mem_map_of_mem CancelInstrumentAudioEntry hd, ?_, ?_, ?_⟩
  · intro h1
    have : d.refs ≠ 1 := by omega
    simp [CancelInstrumentAudioEntry, this]
  · rintro ⟨h1, hs⟩
    simp [CancelInstrumentAudioEntry, h1, hs, CancelAudioAttempt]
  · rintro ⟨h1, hs⟩
    obtain ⟨n, p, r, st⟩ := d
    simp only at h1 hs
    cases st <;> simp_all [CancelInstrumentAudioEntry, CancelAudioAttempt]

/-- Witness for C5: a two-entry set, one entry shared (refs 2, untouched)
and one solely owned in `PendingLoad` (refs 1, flipped to `PendingCancel`). -/
theorem cancel_instrument_audio_spec_witness :
    (⟨"L", "a.flac", 1, .PendingLoad⟩ : ListedAudioData) ∈
        [(⟨"L", "a.flac", 1, .PendingLoad⟩ : ListedAudioData),
         ⟨"L", "b.flac", 2, .Loading⟩] ∧
      ∃ d' ∈ CancelLoadingAudioForInstrumentIfPossible
          [(⟨"L", "a.flac", 1, .PendingLoad⟩ : ListedAudioData),
           ⟨"L", "b.flac", 2, .Loading⟩],
        (1 < (1 : Nat) → d' = ⟨"L", "a.flac", 1, .PendingLoad⟩) ∧
        ((1 : Nat) = 1 ∧ LoadingState.PendingLoad = .PendingLoad →
          d' = ⟨"L", "a.flac", 1, .PendingCancel⟩) ∧
        ((1 : Nat) = 1 ∧ LoadingState.PendingLoad ≠ .PendingLoad →
          d' = ⟨"L", "a.flac", 1, .PendingLoad⟩) :=
  ⟨by decide,
   cancel_instrument_audio_spec
     [⟨"L", "a.flac", 1, .PendingLoad⟩, ⟨"L", "b.flac", 2, .Loading⟩]
     ⟨"L", "a.flac", 1, .PendingLoad⟩ (by decide)⟩

/-- Direction of a reference-count change (`RefCountChange` in the source
header, which is not part of the extracted sources).
Modelled from the spec: `RefCounted<T>` hands out Retain/Release on an atomic
counter. -/
inductive RefCountChange where
  | retain
  | release
  deriving DecidableEq, Repr

/-- Modelled from the spec: `RefCounted<T>::ChangeRefCount` adjusts the
shared object's atomic counter: Retain increments it, Release decrements it
(the header defining `RefCounted` is not among the extracted sources). -/
def applyRefCountChange : RefCountChange → Nat → Nat
  | .retain, n => n + 1
  | .release, n => n - 1

/-- The `RefUnion` of a success result: either a loaded instrument or an
impulse-response audio-data asset, each with the current value of its
underlying atomic reference count. -/
inductive RefUnion where
  | instrument (refs : Nat)
  | ir (refs : Nat)
  deriving DecidableEq, Repr

/-- `LoadResult::Result`: success with a ref-counted asset, an error code, or
cancelled. -/
inductive LoadResultResult where
  | success (asset : RefUnion)
  | error
  | cancelled
  deriving DecidableEq, Repr

/-- A completed load result (`LoadResult`). -/
structure LoadResult where
  result : LoadResultResult
  deriving DecidableEq, Repr

/-- `LoadResult::ChangeRefCount` exactly as written in the source: in the
`LoadRequestType::Ir` case a `break;` statement precedes the call
`asset_union->Get<RefCounted<AudioData>>().ChangeRefCount(t);`, so that call
is unreachable and the impulse-response branch leaves the reference count
untouched. -/
def LoadResult.ChangeRefCount (r : LoadResult) (t : RefCountChange) : LoadResult :=
  match r.result with
  | .success (.instrument n) => ⟨.success (.instrument (applyRefCountChange t n))⟩
  | .success (.ir n) => ⟨.success (.ir n)⟩
  | _ => r

/-- The behaviour the claim (and the spec) describes: a success result
retains/releases its asset's reference count for both asset kinds. -/
def LoadResult.ChangeRefCountClaimed (r : LoadResult) (t : RefCountChange) : LoadResult :=
  match r.result with
  | .success (.instrument n) => ⟨.success (.instrument (applyRefCountChange t n))⟩
  | .success (.ir n) => ⟨.success (.ir (applyRefCountChange t n))⟩
  | _ => r

/-- C1: the code diverges from the claim on impulse-response results.
Retaining a successful IR result leaves the audio data's reference count
unchanged (the stray `break;` makes the IR call dead code), where the claim
requires an increment; the instrument branch does retain.  The destructor
assertions and the channel-close/`Release` protocol in the tests rely on the
claimed behaviour, so this is a bug in the code. -/
theorem load_result_ir_refcount_dead_code :
    LoadResult.ChangeRefCount ⟨.success (.ir 1)⟩ .retain = ⟨.success (.ir 1)⟩ ∧
      LoadResult.ChangeRefCountClaimed ⟨.success (.ir 1)⟩ .retain
        = ⟨.success (.ir 2)⟩ ∧
      LoadResult.ChangeRefCount ⟨.success (.ir 1)⟩ .release = ⟨.success (.ir 1)⟩ ∧
      LoadResult.ChangeRefCountClaimed ⟨.success (.ir 1)⟩ .release
        = ⟨.success (.ir 0)⟩ ∧
      LoadResult.ChangeRefCount ⟨.success (.instrument 1)⟩ .retain
        = ⟨.success (.instrument 2)⟩ := by
  decide

/-- Modelled from the spec: the fixed number of per-client instrument layers
(`k_num_layers`; its defining header is not among the extracted sources). -/
def k_num_layers : Nat := 3

/-- A per-client communication channel (`AsyncCommsChannel`): a used flag, a
results queue, and one loading-percent slot per layer (−1 = not loading).
The completion callback is modelled by the boolean "callback invoked" flags
the operations below return. -/
structure AsyncCommsChannel where
  used : Bool
  results : List LoadResult
  instrument_loading_percents : List Int
  deriving DecidableEq, Repr

/-- `OpenAsyncCommsChannel`: prepends a fresh channel with `used = true` and
every per-layer loading percent initialised to −1. -/
def OpenAsyncCommsChannel : AsyncCommsChannel :=
  { used := true
    results := []
    instrument_loading_percents := List.replicate k_num_layers (-1) }

/-- The request-queue drain step for one dequeued request (loading loop): a
request whose channel is no longer used is skipped (`continue`) without a
pending result being created; otherwise a pending result is prepended. -/
def ConsumeQueuedRequest (ch : AsyncCommsChannel) (req : Nat) (pending : List Nat) :
    List Nat :=
  if ch.used then req :: pending else pending

/-- Terminal-result dispatch (loading loop): while holding the channels lock,
if the channel is still used the result is retained on behalf of the channel,
pushed onto its queue, and the completion callback invoked (returned flag);
otherwise nothing happens. -/
def DispatchResult (ch : AsyncCommsChannel) (r : LoadResult) : AsyncCommsChannel × Bool :=
  if ch.used then
    ({ ch with results := ch.results ++ [r.ChangeRefCount .retain] }, true)
  else (ch, false)

/-- `CloseAsyncCommsChannel`: stores `used := false`, then pops every queued
result and releases it.  Returns the new channel and the list of released
results. -/
def CloseAsyncCommsChannel (ch : AsyncCommsChannel) : AsyncCommsChannel × List LoadResult :=
  ({ ch with used := false, results := [] },
   ch.results.map (fun r => r.ChangeRefCount .release))

/-- C9: an unused channel receives nothing: a dequeued request whose channel
is unused is discarded without creating a pending result, and a terminal
result is pushed (and the callback invoked) only while `used` is true;
`CloseAsyncCommsChannel` clears the flag and releases every queued result. -/
theorem unused_channel_receives_nothing
    (ch : AsyncCommsChannel) (req : Nat) (pending : List Nat) (r : LoadResult)
    (h : ch.used = false) :
    ConsumeQueuedRequest ch req pending = pending ∧
      DispatchResult ch r = (ch, false) ∧
      (CloseAsyncCommsChannel ch).1.used = false ∧
      (CloseAsyncCommsChannel ch).1.results = [] ∧
      (CloseAsyncCommsChannel ch).2
        = ch.results.map (fun x => x.ChangeRefCount .release) := by
  refine ⟨?_, ?_, rfl, rfl, rfl⟩
  · simp [ConsumeQueuedRequest, h]
  · simp [DispatchResult, h]

/-- Witness for C9: a closed channel with one queued instrument result. -/
theorem unused_channel_receives_nothing_witness :
    (⟨false, [⟨.success (.instrument 1)⟩], []⟩ : AsyncCommsChannel).used = false ∧
      ConsumeQueuedRequest ⟨false, [⟨.success (.instrument 1)⟩], []⟩ 7 [] = [] ∧
      (CloseAsyncCommsChannel ⟨false, [⟨.success (.instrument 1)⟩], []⟩).2
        = [⟨.success (.instrument 0)⟩] :=
  ⟨rfl,
   (unused_channel_receives_nothing ⟨false, [⟨.success (.instrument 1)⟩], []⟩ 7 []
      ⟨.cancelled⟩ rfl).1,
   by
    have h := (unused_channel_receives_nothing ⟨false, [⟨.success (.instrument 1)⟩], []⟩
      7 [] ⟨.cancelled⟩ rfl).2.2.2.2
    rw [h]
    decide⟩

/-- C10: a freshly opened channel is marked used and reports the not-loading
sentinel (−1) on every layer. -/
theorem open_channel_initial_state :
    OpenAsyncCommsChannel.used = true ∧
      OpenAsyncCommsChannel.instrument_loading_percents.length = k_num_layers ∧
      OpenAsyncCommsChannel.instrument_loading_percents.all (fun p => p == -1) = true := by
  decide

/-- A registered library's metadata (`ListedLibrary` payload): name, file
path, content hash and the set of instrument names (`insts_by_name` keys). -/
structure Library where
  name : String
  path : String
  file_hash : Nat
  insts : List String
  deriving DecidableEq, Repr

/-- Modelled from the spec: `U32FromChars` packs a 4-character category tag
into a 32-bit integer (its defining header is not among the extracted
sources); only its injectivity on the two concrete tags below is relied on. -/
def u32FromChars (cs : List Char) : Nat :=
  cs.foldl (fun a c => a * 256 + c.toNat % 256) 0 % 2 ^ 32

/-- Modelled from the spec: `Hash32`, the stable 32-bit string hash used in
error-notification ids (not among the extracted sources); only its stability
and 32-bit range matter for the claims. -/
def hash32 (s : String) : Nat :=
  s.data.foldl (fun a c => (a * 31 + c.toNat) % 2 ^ 32) 5381 % 2 ^ 32

/-- `ThreadsafeErrorNotifications::Id`: the 4-char tag in the high 32 bits,
the string hash in the low 32 bits.  `hash32` is below `2 ^ 32`, so the
source's `(u32 << 32) | hash` equals this sum. -/
def notificationId (tag : List Char) (s : String) : Nat :=
  u32FromChars tag * 2 ^ 32 + hash32 s

/-- The tag of a library-not-found notification (source literal `"lib "`). -/
def libNotFoundTag : List Char := ['l', 'i', 'b', ' ']

/-- The tag of an instrument-not-found notification (source literal
`"inst"`). -/
def instNotFoundTag : List Char := ['i', 'n', 's', 't']

theorem hash32_lt (s : String) : hash32 s < 2 ^ 32 :=
  Nat.mod_lt _ (by norm_num)

theorem notification_tags_separate (a b : String) :
    notificationId instNotFoundTag a ≠ notificationId libNotFoundTag b := by
  have h1 := hash32_lt a
  have h2 := hash32_lt b
  have htag : u32FromChars instNotFoundTag ≠ u32FromChars libNotFoundTag := by decide
  unfold notificationId
  omega

/-- Outcome of one `AwaitingLibrary` pass for an instrument request. -/
inductive AwaitingLibraryOutcome where
  | stillAwaiting
  | notFound (notification_id : Nat)
  | proceedToAudio
  deriving DecidableEq, Repr

/-- Registry lookup (`libraries_by_name.Find`; the index is rebuilt from the
registry each cycle). -/
def findLibrary (libraries : List Library) (name : String) : Option Library :=
  libraries.find? (fun l => l.name == name)

/-- The `AwaitingLibrary` branch of the loading loop for an instrument
request: a missing library fails with `NotFound` (id tagged `"lib "`) only
once no library jobs remain outstanding; a present library with an unknown
instrument name fails with `NotFound` (id tagged `"inst"`); otherwise the
request proceeds (`FetchOrCreateInstrument`) or keeps waiting. -/
def AwaitingLibraryStepInstrument (libraries : List Library)
    (num_uncompleted_jobs : Nat) (library_name inst_name : String) :
    AwaitingLibraryOutcome :=
  match findLibrary libraries library_name with
  | none =>
      if num_uncompleted_jobs = 0 then .notFound (notificationId libNotFoundTag library_name)
      else .stillAwaiting
  | some lib =>
      if inst_name ∈ lib.insts then .proceedToAudio
      else .notFound (notificationId instNotFoundTag inst_name)

/-- C6: an `AwaitingLibrary` instrument request fails with the
library-not-found notification exactly when the library is absent and no
library jobs are outstanding; an unknown instrument in a known library fails
with the instrument-not-found notification; and the two notification ids
never coincide. -/
theorem awaiting_library_not_found_spec (libraries : List Library)
    (num_uncompleted_jobs : Nat) (library_name inst_name : String) :
    (AwaitingLibraryStepInstrument libraries num_uncompleted_jobs library_name inst_name
        = .notFound (notificationId libNotFoundTag library_name) ↔
      findLibrary libraries library_name = none ∧ num_uncompleted_jobs = 0) ∧
      (∀ lib, findLibrary libraries library_name = some lib →
        inst_name ∉ lib.insts →
        AwaitingLibraryStepInstrument libraries num_uncompleted_jobs library_name inst_name
          = .notFound (notificationId instNotFoundTag inst_name)) ∧
      (∀ a b : String,
        notificationId instNotFoundTag a ≠ notificationId libNotFoundTag b) := by
  refine ⟨?_, ?_, notification_tags_separate⟩
  · cases hfind : findLibrary libraries library_name with
    | none =>
        by_cases hjobs : num_uncompleted_jobs = 0 <;>
          simp [AwaitingLibraryStepInstrument, hfind, hjobs]
    | some lib =>
        by_cases hmem : inst_name ∈ lib.insts <;>
          simp [AwaitingLibraryStepInstrument, hfind, hmem,
            notification_tags_separate inst_name library_name]
  · intro lib hfind hmem
    simp [AwaitingLibraryStepInstrument, hfind, hmem]

/-- Witness for C6: empty registry, no outstanding jobs: the request fails
with the library-not-found id; and in a one-library registry an unknown
instrument fails with the distinct instrument-not-found id. -/
theorem awaiting_library_not_found_spec_witness :
    AwaitingLibraryStepInstrument [] 0 "Foo" "Bar"
        = .notFound (notificationId libNotFoundTag "Foo") ∧
      AwaitingLibraryStepInstrument [⟨"Lib", "/p", 1, ["i1"]⟩] 0 "Lib" "Bar"
        = .notFound (notificationId instNotFoundTag "Bar") ∧
      notificationId instNotFoundTag "Bar" ≠ notificationId libNotFoundTag "Lib" :=
  ⟨((awaiting_library_not_found_spec [] 0 "Foo" "Bar").1).mpr ⟨rfl, rfl⟩,
   ((awaiting_library_not_found_spec [⟨"Lib", "/p", 1, ["i1"]⟩] 0 "Lib" "Bar").2.1)
     ⟨"Lib", "/p", 1, ["i1"]⟩ (by simp [findLibrary]) (by simp),
   ((awaiting_library_not_found_spec [] 0 "x" "y").2.2) "Bar" "Lib"⟩

/-- Result a library-read job hands back to the orchestrator
(`LibrariesAsyncContext::Job::ReadLibrary::Result::result`): `skipped` is the
source's `nullopt` (identical hash already registered, parse not attempted),
otherwise the parsed library or a parse/read error. -/
inductive ReadLibraryJobResult where
  | skipped
  | parsed (lib : Library)
  | readError
  deriving DecidableEq, Repr

/-- The library-read job body: it hashes the candidate file first and, if any
registered library already carries that hash, returns `nullopt` without
parsing; otherwise it parses (the parser is a black-box collaborator, its
outcome passed in). -/
def ReadLibraryJob (libraries : List Library) (file_hash : Nat)
    (parse_outcome : Option Library) : ReadLibraryJobResult :=
  if libraries.any (fun l => l.file_hash == file_hash) then .skipped
  else
    match parse_outcome with
    | some lib => .parsed { lib with file_hash := file_hash }
    | none => .readError

/-- The orchestrator's handling of a completed library-read job: a `nullopt`
result returns immediately (registry untouched), an error only posts a
notification, and a parsed library first removes every registered library
whose name or path equals the new one's (noting whether an identical hash was
already present) and inserts the new library only when the hash was not
already registered. -/
def HandleReadLibraryJobResult (libraries : List Library) (res : ReadLibraryJobResult) :
    List Library :=
  match res with
  | .skipped => libraries
  | .readError => libraries
  | .parsed lib =>
      let already_exists := libraries.any (fun l => l.file_hash == lib.file_hash)
      let remaining := libraries.filter (fun l => !(l.name == lib.name || l.path == lib.path))
      if already_exists then remaining else lib :: remaining

/-- C7: whenever a registered library already carries the candidate file's
content hash, the read job yields no library (the parse step never runs), and
handling that completed job leaves the registry exactly as it was: nothing
added, nothing removed. -/
theorem identical_hash_read_job_is_noop
    (libraries : List Library) (file_hash : Nat) (parse_outcome : Option Library)
    (h : ∃ l ∈ libraries, l.file_hash = file_hash) :
    ReadLibraryJob libraries file_hash parse_outcome = .skipped ∧
      HandleReadLibraryJobResult libraries
        (ReadLibraryJob libraries file_hash parse_outcome) = libraries := by
  have hany : libraries.any (fun l => l.file_hash == file_hash) = true := by
    obtain ⟨l, hl, he⟩ := h
    exact List.any_eq_true.mpr ⟨l, hl, by simp [he]⟩
  constructor
  · simp [ReadLibraryJob, hany]
  · simp [ReadLibraryJob, hany, HandleReadLibraryJobResult]

/-- Witness for C7: a one-library registry whose entry already has the
candidate hash. -/
theorem identical_hash_read_job_is_noop_witness :
    (∃ l ∈ [(⟨"Lib", "/p", 42, []⟩ : Library)], l.file_hash = 42) ∧
      ReadLibraryJob [(⟨"Lib", "/p", 42, []⟩ : Library)] 42
          (some ⟨"Lib2", "/q", 0, []⟩) = .skipped ∧
      HandleReadLibraryJobResult [(⟨"Lib", "/p", 42, []⟩ : Library)]
          (ReadLibraryJob [(⟨"Lib", "/p", 42, []⟩ : Library)] 42
            (some ⟨"Lib2", "/q", 0, []⟩))
        = [(⟨"Lib", "/p", 42, []⟩ : Library)] :=
  ⟨⟨⟨"Lib", "/p", 42, []⟩, by decide, rfl⟩,
   identical_hash_read_job_is_noop [⟨"Lib", "/p", 42, []⟩] 42
     (some ⟨"Lib2", "/q", 0, []⟩) ⟨⟨"Lib", "/p", 42, []⟩, by decide, rfl⟩⟩

theorem handle_parsed_mem (libraries : List Library) (lib l : Library)
    (hl : l ∈ HandleReadLibraryJobResult libraries (.parsed lib)) :
    l = lib ∨ (l ∈ libraries ∧ l.name ≠ lib.name ∧ l.path ≠ lib.path) := by
  unfold HandleReadLibraryJobResult at hl
  by_cases hex : libraries.any (fun x => x.file_hash == lib.file_hash) <;>
    simp only [hex, if_pos, if_neg, Bool.not_eq_true, List.mem_cons] at hl
  · right
    have := List.mem_filter.mp hl
    refine ⟨this.1, ?_⟩
    have hb := this.2
    simp only [Bool.not_eq_true', Bool.or_eq_false_iff, beq_eq_false_iff_ne] at hb
    exact hb
  · rcases hl with hl | hl
    · exact Or.inl hl
    · right
      have := List.mem_filter.mp hl
      refine ⟨this.1, ?_⟩
      have hb := this.2
      simp only [Bool.not_eq_true', Bool.or_eq_false_iff, beq_eq_false_iff_ne] at hb
      exact hb

/-- C8: handling a successful library (re)read preserves the registry
invariant that names are pairwise distinct and paths are pairwise distinct:
every library whose name or path equals the new one's is removed before the
insert, so every surviving entry is either the new library or an old one with
a different name and path, and the rebuilt by-name index meets no duplicate
name. -/
theorem registry_unique_after_replacement
    (libraries : List Library) (lib : Library)
    (hn : (libraries.map Library.name).Nodup)
    (hp : (libraries.map Library.path).Nodup) :
    ((HandleReadLibraryJobResult libraries (.parsed lib)).map Library.name).Nodup ∧
      ((HandleReadLibraryJobResult libraries (.parsed lib)).map Library.path).Nodup ∧
      ∀ l ∈ HandleReadLibraryJobResult libraries (.parsed lib),
        l = lib ∨ (l.name ≠ lib.name ∧ l.path ≠ lib.path) := by
  have hfil : ∀ f : Library → String, (libraries.map f).Nodup →
      ((libraries.filter
        (fun x => !(x.name == lib.name || x.path == lib.path))).map f).Nodup := by
    intro f hf
    exact ((List.filter_sublist libraries).map f).nodup hf
  have hnewname : lib.name ∉
      (libraries.filter
        (fun x => !(x.name == lib.name || x.path == lib.path))).map Library.name := by
    intro hmem
    obtain ⟨x, hx, hxe⟩ := List.mem_map.mp hmem
    have hb := (List.mem_filter.mp hx).2
    simp only [Bool.not_eq_true', Bool.or_eq_false_iff, beq_eq_false_iff_ne] at hb
    exact hb.1 hxe
  have hnewpath : lib.path ∉
      (libraries.filter
        (fun x => !(x.name == lib.name || x.path == lib.path))).map Library.path := by
    intro hmem
    obtain ⟨x, hx, hxe⟩ := List.mem_map.mp hmem
    have hb := (List.mem_filter.mp hx).2
    simp only [Bool.not_eq_true', Bool.or_eq_false_iff, beq_eq_false_iff_ne] at hb
    exact hb.2 hxe
  refine ⟨?_, ?_, fun l hl => ?_⟩
  · unfold HandleReadLibraryJobResult
    by_cases hex : libraries.any (fun x => x.file_hash == lib.file_hash) <;>
      simp only [hex, if_pos, if_neg, List.map_cons]
    · exact hfil Library.name hn
    · exact List.nodup_cons.mpr ⟨hnewname, hfil Library.name hn⟩
  · unfold HandleReadLibraryJobResult
    by_cases hex : libraries.any (fun x => x.file_hash == lib.file_hash) <;>
      simp only [hex, if_pos, if_neg, List.map_cons]
    · exact hfil Library.path hp
    · exact List.nodup_cons.mpr ⟨hnewpath, hfil Library.path hp⟩
  · rcases handle_parsed_mem libraries lib l hl with h | h
    · exact Or.inl h
    · exact Or.inr h.2

/-- Witness for C8: replacing a library that shares its path with a
registered entry in a two-entry registry. -/
theorem registry_unique_after_replacement_witness :
    ((([(⟨"A", "/a", 1, []⟩ : Library), ⟨"B", "/b", 2, []⟩]).map Library.name).Nodup ∧
        (([(⟨"A", "/a", 1, []⟩ : Library), ⟨"B", "/b", 2, []⟩]).map Library.path).Nodup) ∧
      ((HandleReadLibraryJobResult [⟨"A", "/a", 1, []⟩, ⟨"B", "/b", 2, []⟩]
          (.parsed ⟨"A2", "/a", 3, []⟩)).map Library.name).Nodup :=
  ⟨⟨by decide, by decide⟩,
   (registry_unique_after_replacement [⟨"A", "/a", 1, []⟩, ⟨"B", "/b", 2, []⟩]
     ⟨"A2", "/a", 3, []⟩ (by decide) (by decide)).1⟩

/-- The entry-lookup predicate of `FetchOrCreateAudioData`: an entry matches
when its (library name, path) pair equals the requested key. -/
def audioKeyMatches (lib path : String) (d : ListedAudioData) : Bool :=
  d.library_name == lib && d.path == path

/-- Linear scan of the audio-data list for the first entry with the given
key (the `for (auto& d : audio_datas)` loop). -/
def findAudioData (store : List ListedAudioData) (lib path : String) :
    Option ListedAudioData :=
  store.find? (audioKeyMatches lib path)

/-- In-place mutation of the entry the lookup found: the first key-matching
entry is replaced by `f` of itself (pointer write in the source). -/
def updateFirstAudioData (lib path : String) (f : ListedAudioData → ListedAudioData) :
    List ListedAudioData → List ListedAudioData
  | [] => []
  | d :: rest =>
      if audioKeyMatches lib path d then f d :: rest
      else d :: updateFirstAudioData lib path f rest

/-- The effect of `TriggerReloadIfAudioIsCancelled` on the whole entry: only
the state field is written. -/
def triggerReloadEntry (e : ListedAudioData) : ListedAudioData :=
  { e with state := (TriggerReloadIfAudioIsCancelled e.state).1 }

/-- `FetchOrCreateAudioData`: finds an existing entry by (library name, path)
and runs `TriggerReloadIfAudioIsCancelled` on it, or prepends a fresh entry
(`refs = 0`, state `PendingLoad`) and dispatches one decode job.  Returns the
updated store and the number of decode jobs dispatched. -/
def FetchOrCreateAudioData (store : List ListedAudioData) (lib path : String) :
    List ListedAudioData × Nat :=
  match findAudioData store lib path with
  | some d =>
      (updateFirstAudioData lib path triggerReloadEntry store,
       (TriggerReloadIfAudioIsCancelled d.state).2)
  | none =>
      ({ library_name := lib, path := path, refs := 0, state := .PendingLoad } :: store, 1)

theorem updateFirstAudioData_length (lib path : String)
    (f : ListedAudioData → ListedAudioData) (store : List ListedAudioData) :
    (updateFirstAudioData lib path f store).length = store.length := by
  induction store with
  | nil => rfl
  | cons d rest ih =>
      by_cases h : audioKeyMatches lib path d <;>
        simp [updateFirstAudioData, h, ih]

theorem audioKeyMatches_eq (lib path : String) (d : ListedAudioData)
    (h : audioKeyMatches lib path d = true) :
    d.library_name = lib ∧ d.path = path := by
  simpa [audioKeyMatches] using h

theorem find_updateFirstAudioData_same (lib path : String)
    (f : ListedAudioData → ListedAudioData) (store : List ListedAudioData)
    (hf : ∀ e, (f e).library_name = e.library_name ∧ (f e).path = e.path) :
    findAudioData (updateFirstAudioData lib path f store) lib path
      = (findAudioData store lib path).map f := by
  induction store with
  | nil => rfl
  | cons d rest ih =>
      by_cases h : audioKeyMatches lib path d
      · have hfd : audioKeyMatches lib path (f d) = true := by
          have := audioKeyMatches_eq lib path d h
          simp [audioKeyMatches, (hf d).1, (hf d).2, this.1, this.2]
        simp [updateFirstAudioData, findAudioData, h,
          List.find?_cons_of_pos _ h, List.find?_cons_of_pos _ hfd]
      · simp only [updateFirstAudioData, h, if_neg, Bool.not_eq_true]
        simp only [findAudioData] at ih ⊢
        rw [List.find?_cons_of_neg _ (by simp [h]),
          List.find?_cons_of_neg _ (by simp [h]), ih]

theorem find_updateFirstAudioData_other (lib path lib' path' : String)
    (f : ListedAudioData → ListedAudioData) (store : List ListedAudioData)
    (hkey : ¬(lib = lib' ∧ path = path'))
    (hf : ∀ e, (f e).library_name = e.library_name ∧ (f e).path = e.path) :
    findAudioData (updateFirstAudioData lib path f store) lib' path'
      = findAudioData store lib' path' := by
  induction store with
  | nil => rfl
  | cons d rest ih =>
      by_cases h : audioKeyMatches lib path d
      · have hd := audioKeyMatches_eq lib path d h
        have hnot : audioKeyMatches lib' path' d = false := by
          rcases Bool.eq_false_or_eq_true (audioKeyMatches lib' path' d) with hh | hh
          · exfalso
            have := audioKeyMatches_eq lib' path' d hh
            exact absurd ⟨hd.1 ▸ this.1, hd.2 ▸ this.2⟩ hkey
          · exact hh
        have hnotf : audioKeyMatches lib' path' (f d) = false := by
          simp only [audioKeyMatches, (hf d).1, (hf d).2] at hnot ⊢
          exact hnot
        simp only [updateFirstAudioData, h, if_pos, findAudioData]
        rw [List.find?_cons_of_neg _ (by simp [hnotf]),
          List.find?_cons_of_neg _ (by simp [hnot])]
      · by_cases h2 : audioKeyMatches lib' path' d
        · simp only [updateFirstAudioData, h, if_neg, Bool.not_eq_true, findAudioData]
          rw [List.find?_cons_of_pos _ h2, List.find?_cons_of_pos _ h2]
        · simp only [updateFirstAudioData, h, if_neg, Bool.not_eq_true, findAudioData]
          simp only [findAudioData] at ih
          rw [List.find?_cons_of_neg _ (by simp [h2]),
            List.find?_cons_of_neg _ (by simp [h2]), ih]

theorem trigger_reload_jobs (s : LoadingState) :
    (TriggerReloadIfAudioIsCancelled s).2
      = (if s = .CompletedCancelled then 1 else 0) := by
  cases s <;> rfl

/-- C4: fetching an existing (library, path) entry returns that same entry
(no allocation: the store length is unchanged, every other key untouched,
the entry keeps its identity and refs, only its state follows the
cancellation-reversal rule) and dispatches a decode job only from
`CompletedCancelled`; fetching a missing key prepends a fresh entry with
`refs = 0` in `PendingLoad` and dispatches exactly one decode job. -/
theorem fetch_or_create_audio_data_spec (store : List ListedAudioData)
    (lib path : String) :
    (∀ d, findAudioData store lib path = some d →
        (FetchOrCreateAudioData store lib path).1.length = store.length ∧
        findAudioData (FetchOrCreateAudioData store lib path).1 lib path
          = some { d with state := (TriggerReloadIfAudioIsCancelled d.state).1 } ∧
        (FetchOrCreateAudioData store lib path).2
          = (if d.state = .CompletedCancelled then 1 else 0) ∧
        (∀ lib' path', ¬(lib = lib' ∧ path = path') →
          findAudioData (FetchOrCreateAudioData store lib path).1 lib' path'
            = findAudioData store lib' path')) ∧
      (findAudioData store lib path = none →
        (FetchOrCreateAudioData store lib path).1
          = { library_name := lib, path := path, refs := 0,
              state := .PendingLoad } :: store ∧
        (FetchOrCreateAudioData store lib path).2 = 1) := by
  constructor
  · intro d hd
    have hf : ∀ e : ListedAudioData,
        (triggerReloadEntry e).library_name = e.library_name ∧
          (triggerReloadEntry e).path = e.path :=
      fun e => ⟨rfl, rfl⟩
    refine ⟨?_, ?_, ?_, ?_⟩
    · simp [FetchOrCreateAudioData, hd, updateFirstAudioData_length]
    · simp [FetchOrCreateAudioData, hd, find_updateFirstAudioData_same _ _ _ _ hf,
        triggerReloadEntry]
    · simp [FetchOrCreateAudioData, hd, trigger_reload_jobs]
    · intro lib' path' hkey
      simp [FetchOrCreateAudioData, hd,
        find_updateFirstAudioData_other _ _ _ _ _ _ hkey hf]
  · intro hnone
    exact ⟨by simp [FetchOrCreateAudioData, hnone], by simp [FetchOrCreateAudioData, hnone]⟩

/-- Witness for C4: a store holding one cancelled entry: fetching it again
re-dispatches exactly one decode job and flips it to `PendingLoad`; fetching
an unknown key creates one `PendingLoad` entry with refs 0. -/
theorem fetch_or_create_audio_data_spec_witness :
    findAudioData [(⟨"L", "a", 1, .CompletedCancelled⟩ : ListedAudioData)] "L" "a"
        = some ⟨"L", "a", 1, .CompletedCancelled⟩ ∧
      findAudioData (FetchOrCreateAudioData
          [(⟨"L", "a", 1, .CompletedCancelled⟩ : ListedAudioData)] "L" "a").1 "L" "a"
        = some ⟨"L", "a", 1, .PendingLoad⟩ ∧
      (FetchOrCreateAudioData
          [(⟨"L", "a", 1, .CompletedCancelled⟩ : ListedAudioData)] "L" "a").2 = 1 ∧
      findAudioData ([] : List ListedAudioData) "L" "b" = none ∧
      (FetchOrCreateAudioData [] "L" "b").1
        = [{ library_name := "L", path := "b", refs := 0, state := .PendingLoad }] :=
  ⟨by decide,
   by
    have h := ((fetch_or_create_audio_data_spec
        [⟨"L", "a", 1, .CompletedCancelled⟩] "L" "a").1
      ⟨"L", "a", 1, .CompletedCancelled⟩ (by decide)).2.1
    rw [h]; decide,
   by
    have h := ((fetch_or_create_audio_data_spec
        [⟨"L", "a", 1, .CompletedCancelled⟩] "L" "a").1
      ⟨"L", "a", 1, .CompletedCancelled⟩ (by decide)).2.2.1
    rw [h]; decide,
   by decide,
   ((fetch_or_create_audio_data_spec [] "L" "b").2 (by decide)).1⟩

/-- A materialized instrument (`ListedInstrument`).  Audio entries are
identified by their (library name, path) key — the stable identity the
source's pointers carry: `audio_datas` has one key per region in region
order, `audio_data_set` is the deduplicated set built with
`AppendIfNotAlreadyThere`. -/
structure ListedInstrument where
  name : String
  audio_datas : List (String × String)
  audio_data_set : List (String × String)
  refs : Nat
  deriving DecidableEq, Repr

/-- `dyn::AppendIfNotAlreadyThere`: append unless already present. -/
def AppendIfNotAlreadyThere (xs : List (String × String)) (x : String × String) :
    List (String × String) :=
  if x ∈ xs then xs else xs ++ [x]

/-- The region loop of `FetchOrCreateInstrument`: for each region path, fetch
or create its audio entry, record it per-region, and add it to the
deduplicated `audio_data_set`.  Returns the updated store, the set and the
number of decode jobs dispatched. -/
def fetchRegionsLoop (lib : String) :
    List String → List ListedAudioData → List (String × String) →
      List ListedAudioData × List (String × String) × Nat
  | [], store, set => (store, set, 0)
  | p :: rest, store, set =>
      let r := FetchOrCreateAudioData store lib p
      let r' := fetchRegionsLoop lib rest r.1 (AppendIfNotAlreadyThere set (lib, p))
      (r'.1, r'.2.1, r.2 + r'.2.2)

/-- The per-entry `refs.FetchAdd(1)` of the post-loop
`for (auto d : audio_data_set) d->refs.FetchAdd(1);`. -/
def bumpEntryRefs (e : ListedAudioData) : ListedAudioData :=
  { e with refs := e.refs + 1 }

/-- Increment the reference count of each entry of the deduplicated set. -/
def bumpAudioRefs (store : List ListedAudioData) (set : List (String × String)) :
    List ListedAudioData :=
  set.foldl (fun st k => updateFirstAudioData k.1 k.2 bumpEntryRefs st) store

/-- The allocation path of `FetchOrCreateInstrument` (taken when no
instrument of that name is already listed for the library): resolve every
region path through the audio-data store, dedup the entries into
`audio_data_set`, then increment each set member's reference count once. -/
def FetchOrCreateInstrument (store : List ListedAudioData) (lib inst_name : String)
    (region_paths : List String) : List ListedAudioData × ListedInstrument × Nat :=
  let r := fetchRegionsLoop lib region_paths store []
  (bumpAudioRefs r.1 r.2.1,
   { name := inst_name
     audio_datas := region_paths.map (fun p => (lib, p))
     audio_data_set := r.2.1
     refs := 0 },
   r.2.2)

/-- Reference count the store records for a key (0 when absent). -/
def audioRefsOf (store : List ListedAudioData) (lib path : String) : Nat :=
  match findAudioData store lib path with
  | some d => d.refs
  | none => 0

/-- Loading state the store records for a key. -/
def audioStateOf (store : List ListedAudioData) (lib path : String) :
    Option LoadingState :=
  (findAudioData store lib path).map (fun d => d.state)

/-- Completed-audio count of the loading loop's percentage computation. -/
def numCompletedAudio (store : List ListedAudioData)
    (set : List (String × String)) : Nat :=
  (set.filter (fun k => audioStateOf store k.1 k.2 == some .CompletedSucessfully)).length

/-- Error scan of the loading loop (`For each inst, check for errors`). -/
def instrumentAudioHasError (store : List ListedAudioData)
    (set : List (String × String)) : Bool :=
  set.any (fun k => audioStateOf store k.1 k.2 == some .CompletedWithError)

/-- Outcome of one `AwaitingAudio` pass for a still-desired instrument. -/
inductive AwaitingAudioOutcome where
  | completedSuccessfully
  | stillLoading (num_completed : Nat)
  deriving DecidableEq, Repr

/-- The `AwaitingAudio` completion check: when every set entry has completed
successfully the result becomes success, otherwise the loading percentage is
republished. -/
def AwaitingAudioStepInstrument (store : List ListedAudioData)
    (set : List (String × String)) : AwaitingAudioOutcome :=
  if numCompletedAudio store set = set.length then .completedSuccessfully
  else .stillLoading (numCompletedAudio store set)

theorem appendIfNot_mem (xs : List (String × String)) (x k : String × String) :
    k ∈ AppendIfNotAlreadyThere xs x ↔ k ∈ xs ∨ k = x := by
  unfold AppendIfNotAlreadyThere
  by_cases h : x ∈ xs
  · simp only [h, if_pos]
    constructor
    · exact Or.inl
    · rintro (hk | rfl)
      · exact hk
      · exact h
  · simp [h]

theorem appendIfNot_nodup (xs : List (String × String)) (x : String × String)
    (hx : xs.Nodup) : (AppendIfNotAlreadyThere xs x).Nodup := by
  unfold AppendIfNotAlreadyThere
  by_cases h : x ∈ xs
  · simpa [h]
  · simp only [h, if_neg, not_false_iff]
    exact ((List.perm_append_singleton x xs).nodup_iff).mpr (List.nodup_cons.mpr ⟨h, hx⟩)

theorem fetchRegionsLoop_set (lib : String) (paths : List String) :
    ∀ (store : List ListedAudioData) (set : List (String × String)),
      (fetchRegionsLoop lib paths store set).2.1
        = paths.foldl (fun s p => AppendIfNotAlreadyThere s (lib, p)) set := by
  induction paths with
  | nil => intro store set; rfl
  | cons p rest ih =>
      intro store set
      simp only [fetchRegionsLoop, List.foldl_cons]
      exact ih _ _

theorem setFold_mem (lib : String) (paths : List String) :
    ∀ (init : List (String × String)) (k : String × String),
      k ∈ paths.foldl (fun s p => AppendIfNotAlreadyThere s (lib, p)) init ↔
        k ∈ init ∨ (k.1 = lib ∧ k.2 ∈ paths) := by
  induction paths with
  | nil => intro init k; simp
  | cons p rest ih =>
      intro init k
      simp only [List.foldl_cons, ih, appendIfNot_mem, List.mem_cons]
      constructor
      · rintro ((hk | rfl) | hk)
        · exact Or.inl hk
        · exact Or.inr ⟨rfl, Or.inl rfl⟩
        · exact Or.inr ⟨hk.1, Or.inr hk.2⟩
      · rintro (hk | ⟨h1, h2 | h2⟩)
        · exact Or.inl (Or.inl hk)
        · left; right
          obtain ⟨a, b⟩ := k
          simp only at h1 h2
          rw [h1, h2]
        · exact Or.inr ⟨h1, h2⟩

theorem setFold_nodup (lib : String) (paths : List String) :
    ∀ (init : List (String × String)), init.Nodup →
      (paths.foldl (fun s p => AppendIfNotAlreadyThere s (lib, p)) init).Nodup := by
  induction paths with
  | nil => intro init h; simpa
  | cons p rest ih =>
      intro init h
      exact ih _ (appendIfNot_nodup init (lib, p) h)

/-- Whether the store has an entry for the key. -/
def audioPresent (store : List ListedAudioData) (lib path : String) : Bool :=
  (findAudioData store lib path).isSome

theorem audioRefsOf_fetchOrCreate (store : List ListedAudioData) (lib path a b : String) :
    audioRefsOf (FetchOrCreateAudioData store lib path).1 a b = audioRefsOf store a b := by
  unfold FetchOrCreateAudioData
  cases hd : findAudioData store lib path with
  | some d =>
      simp only
      by_cases hk : lib = a ∧ path = b
      · obtain ⟨rfl, rfl⟩ := hk
        unfold audioRefsOf
        rw [find_updateFirstAudioData_same _ _ triggerReloadEntry _ (fun e => ⟨rfl, rfl⟩), hd]
        rfl
      · unfold audioRefsOf
        rw [find_updateFirstAudioData_other _ _ _ _ triggerReloadEntry _ hk (fun e => ⟨rfl, rfl⟩)]
  | none =>
      simp only
      by_cases hk : lib = a ∧ path = b
      · obtain ⟨rfl, rfl⟩ := hk
        unfold audioRefsOf findAudioData
        unfold findAudioData at hd
        rw [List.find?_cons_of_pos _ (by simp [audioKeyMatches]), hd]
      · unfold audioRefsOf findAudioData
        rw [List.find?_cons_of_neg _ (by
          simp only [audioKeyMatches, Bool.and_eq_true, beq_iff_eq]
          intro hcontra
          exact hk ⟨hcontra.1, hcontra.2⟩)]

theorem audioPresent_fetchOrCreate_key (store : List ListedAudioData) (lib path : String) :
    audioPresent (FetchOrCreateAudioData store lib path).1 lib path = true := by
  unfold FetchOrCreateAudioData
  cases hd : findAudioData store lib path with
  | some d =>
      simp only [audioPresent]
      rw [find_updateFirstAudioData_same _ _ triggerReloadEntry _ (fun e => ⟨rfl, rfl⟩), hd]
      rfl
  | none =>
      simp only [audioPresent, findAudioData]
      rw [List.find?_cons_of_pos _ (by simp [audioKeyMatches])]
      rfl

theorem audioPresent_fetchOrCreate (store : List ListedAudioData) (lib path a b : String)
    (hp : audioPresent store a b = true) :
    audioPresent (FetchOrCreateAudioData store lib path).1 a b = true := by
  unfold FetchOrCreateAudioData
  cases hd : findAudioData store lib path with
  | some d =>
      simp only
      by_cases hk : lib = a ∧ path = b
      · obtain ⟨rfl, rfl⟩ := hk
        unfold audioPresent at hp ⊢
        rw [find_updateFirstAudioData_same _ _ triggerReloadEntry _ (fun e => ⟨rfl, rfl⟩)]
        cases hf : findAudioData store lib path with
        | some e => rfl
        | none => rw [hf] at hp; simp [Option.isSome] at hp
      · unfold audioPresent at hp ⊢
        rw [find_updateFirstAudioData_other _ _ _ _ triggerReloadEntry _ hk (fun e => ⟨rfl, rfl⟩)]
        exact hp
  | none =>
      simp only [audioPresent, findAudioData] at hp ⊢
      cases hh : audioKeyMatches a b
          { library_name := lib, path := path, refs := 0, state := .PendingLoad } with
      | true => rw [List.find?_cons_of_pos _ hh]; rfl
      | false => rw [List.find?_cons_of_neg _ (by simp [hh])]; exact hp

theorem audioRefsOf_fetchRegionsLoop (lib : String) (paths : List String) :
    ∀ (store : List ListedAudioData) (set : List (String × String)) (a b : String),
      audioRefsOf (fetchRegionsLoop lib paths store set).1 a b = audioRefsOf store a b := by
  induction paths with
  | nil => intro store set a b; rfl
  | cons p rest ih =>
      intro store set a b
      simp only [fetchRegionsLoop]
      rw [ih, audioRefsOf_fetchOrCreate]

theorem audioPresent_fetchRegionsLoop (lib : String) (paths : List String) :
    ∀ (store : List ListedAudioData) (set : List (String × String)) (a b : String),
      audioPresent store a b = true →
      audioPresent (fetchRegionsLoop lib paths store set).1 a b = true := by
  induction paths with
  | nil => intro store set a b h; exact h
  | cons p rest ih =>
      intro store set a b h
      simp only [fetchRegionsLoop]
      exact ih _ _ _ _ (audioPresent_fetchOrCreate _ _ _ _ _ h)

theorem audioPresent_after_fetchRegionsLoop (lib : String) (paths : List String) :
    ∀ (store : List ListedAudioData) (set : List (String × String)) (p : String),
      p ∈ paths →
      audioPresent (fetchRegionsLoop lib paths store set).1 lib p = true := by
  induction paths with
  | nil => intro store set p h; cases h
  | cons q rest ih =>
      intro store set p h
      simp only [fetchRegionsLoop]
      rcases List.mem_cons.mp h with rfl | h
      · exact audioPresent_fetchRegionsLoop lib rest _ _ _ _
          (audioPresent_fetchOrCreate_key store lib p)
      · exact ih _ _ _ h

theorem audioRefsOf_bumpOne_present (a b : String) (store : List ListedAudioData)
    (hp : audioPresent store a b = true) :
    audioRefsOf (updateFirstAudioData a b bumpEntryRefs store) a b
      = audioRefsOf store a b + 1 := by
  unfold audioRefsOf
  rw [find_updateFirstAudioData_same _ _ bumpEntryRefs _ (fun e => ⟨rfl, rfl⟩)]
  cases hf : findAudioData store a b with
  | some d => rfl
  | none => unfold audioPresent at hp; rw [hf] at hp; simp [Option.isSome] at hp

theorem audioRefsOf_bumpOne_other (a b a' b' : String) (store : List ListedAudioData)
    (hk : ¬(a = a' ∧ b = b')) :
    audioRefsOf (updateFirstAudioData a b bumpEntryRefs store) a' b'
      = audioRefsOf store a' b' := by
  unfold audioRefsOf
  rw [find_updateFirstAudioData_other _ _ _ _ bumpEntryRefs _ hk (fun e => ⟨rfl, rfl⟩)]

theorem audioPresent_bumpOne (a b a' b' : String) (store : List ListedAudioData)
    (hp : audioPresent store a' b' = true) :
    audioPresent (updateFirstAudioData a b bumpEntryRefs store) a' b' = true := by
  by_cases hk : a = a' ∧ b = b'
  · obtain ⟨rfl, rfl⟩ := hk
    unfold audioPresent at hp ⊢
    rw [find_updateFirstAudioData_same _ _ bumpEntryRefs _ (fun e => ⟨rfl, rfl⟩)]
    cases hf : findAudioData store a b with
    | some d => rfl
    | none => rw [hf] at hp; simp [Option.isSome] at hp
  · unfold audioPresent at hp ⊢
    rw [find_updateFirstAudioData_other _ _ _ _ bumpEntryRefs _ hk (fun e => ⟨rfl, rfl⟩)]
    exact hp

theorem audioRefsOf_bump_notmem (set : List (String × String)) :
    ∀ (store : List ListedAudioData) (a b : String), (a, b) ∉ set →
      audioRefsOf (bumpAudioRefs store set) a b = audioRefsOf store a b := by
  induction set with
  | nil => intro store a b h; rfl
  | cons k rest ih =>
      intro store a b h
      have hk : ¬(k.1 = a ∧ k.2 = b) := by
        rintro ⟨h1, h2⟩
        exact h (by simp [List.mem_cons, ← h1, ← h2])
      simp only [bumpAudioRefs, List.foldl_cons]
      rw [show rest.foldl (fun st x => updateFirstAudioData x.1 x.2 bumpEntryRefs st)
            (updateFirstAudioData k.1 k.2 bumpEntryRefs store)
          = bumpAudioRefs (updateFirstAudioData k.1 k.2 bumpEntryRefs store) rest from rfl]
      rw [ih _ _ _ (fun hmem => h (List.mem_cons_of_mem k hmem)),
        audioRefsOf_bumpOne_other _ _ _ _ _ hk]

theorem audioRefsOf_bump_mem (set : List (String × String)) :
    ∀ (store : List ListedAudioData) (a b : String), set.Nodup → (a, b) ∈ set →
      audioPresent store a b = true →
      audioRefsOf (bumpAudioRefs store set) a b = audioRefsOf store a b + 1 := by
  induction set with
  | nil => intro store a b _ h; cases h
  | cons k rest ih =>
      intro store a b hnd hmem hp
      have hnd' := List.nodup_cons.mp hnd
      simp only [bumpAudioRefs, List.foldl_cons]
      rw [show rest.foldl (fun st x => updateFirstAudioData x.1 x.2 bumpEntryRefs st)
            (updateFirstAudioData k.1 k.2 bumpEntryRefs store)
          = bumpAudioRefs (updateFirstAudioData k.1 k.2 bumpEntryRefs store) rest from rfl]
      rcases List.mem_cons.mp hmem with rfl | hmem'
      · rw [audioRefsOf_bump_notmem rest _ _ _ hnd'.1,
          audioRefsOf_bumpOne_present _ _ _ hp]
      · have hk : ¬(k.1 = a ∧ k.2 = b) := by
          rintro ⟨h1, h2⟩
          apply hnd'.1
          rw [show k = (a, b) from Prod.ext h1 h2]
          exact hmem'
        rw [ih _ _ _ hnd'.2 hmem' (audioPresent_bumpOne _ _ _ _ _ hp),
          audioRefsOf_bumpOne_other _ _ _ _ _ hk]

theorem setFold_length_dedup (lib : String) (paths : List String) :
    (paths.foldl (fun s p => AppendIfNotAlreadyThere s (lib, p)) []).length
      = paths.dedup.length := by
  have hn : (paths.foldl (fun s p => AppendIfNotAlreadyThere s (lib, p)) []).Nodup :=
    setFold_nodup lib paths [] List.nodup_nil
  have hinj : Function.Injective (fun p : String => (lib, p)) := by
    intro p q h
    simpa using congrArg Prod.snd h
  have hT : (paths.dedup.map (fun p => (lib, p))).Nodup :=
    (paths.nodup_dedup).map hinj
  have hperm : List.Perm
      (paths.foldl (fun s p => AppendIfNotAlreadyThere s (lib, p)) [])
      (paths.dedup.map (fun p => (lib, p))) := by
    rw [List.perm_ext_iff_of_nodup hn hT]
    intro k
    have hmem := setFold_mem lib paths [] k
    simp only [List.not_mem_nil, false_or] at hmem
    rw [hmem]
    simp only [List.mem_map, List.mem_dedup]
    constructor
    · rintro ⟨h1, h2⟩
      exact ⟨k.2, h2, Prod.ext h1.symm rfl⟩
    · rintro ⟨p, hp, rfl⟩
      exact ⟨rfl, hp⟩
  rw [hperm.length_eq, List.length_map]

theorem awaiting_audio_all_completed (store : List ListedAudioData)
    (set : List (String × String))
    (h : ∀ k ∈ set, audioStateOf store k.1 k.2 = some .CompletedSucessfully) :
    instrumentAudioHasError store set = false ∧
      AwaitingAudioStepInstrument store set = .completedSuccessfully := by
  constructor
  · unfold instrumentAudioHasError
    rw [List.any_eq_false]
    intro k hk
    simp [h k hk]
  · unfold AwaitingAudioStepInstrument numCompletedAudio
    rw [List.filter_eq_self.mpr (fun k hk => by simp [h k hk])]
    simp

/-- C3: materializing a fresh instrument resolves one audio entry per region
(`audio_datas` has exactly one key per region), builds a duplicate-free
`audio_data_set` holding exactly one entry per distinct region file path (so
its size is the distinct-path count), increments each distinct entry's
reference count by exactly one (all other keys untouched), and once every set
entry has decoded successfully the error scan is clear and the `AwaitingAudio`
pass promotes the request to success. -/
theorem fetch_or_create_instrument_spec (store : List ListedAudioData)
    (lib inst_name : String) (region_paths : List String) :
    (FetchOrCreateInstrument store lib inst_name region_paths).2.1.audio_datas.length
        = region_paths.length ∧
      (FetchOrCreateInstrument store lib inst_name region_paths).2.1.audio_data_set.Nodup ∧
      (∀ k : String × String,
        k ∈ (FetchOrCreateInstrument store lib inst_name region_paths).2.1.audio_data_set
          ↔ k.1 = lib ∧ k.2 ∈ region_paths) ∧
      (FetchOrCreateInstrument store lib inst_name region_paths).2.1.audio_data_set.length
        = region_paths.dedup.length ∧
      (∀ p ∈ region_paths,
        audioRefsOf (FetchOrCreateInstrument store lib inst_name region_paths).1 lib p
          = audioRefsOf store lib p + 1) ∧
      (∀ a b : String, ¬(a = lib ∧ b ∈ region_paths) →
        audioRefsOf (FetchOrCreateInstrument store lib inst_name region_paths).1 a b
          = audioRefsOf store a b) ∧
      (∀ store2 : List ListedAudioData,
        (∀ k ∈ (FetchOrCreateInstrument store lib inst_name region_paths).2.1.audio_data_set,
          audioStateOf store2 k.1 k.2 = some .CompletedSucessfully) →
        instrumentAudioHasError store2
            (FetchOrCreateInstrument store lib inst_name
              region_paths).2.1.audio_data_set = false ∧
          AwaitingAudioStepInstrument store2
              (FetchOrCreateInstrument store lib inst_name
                region_paths).2.1.audio_data_set
            = .completedSuccessfully) := by
  have hset : (FetchOrCreateInstrument store lib inst_name region_paths).2.1.audio_data_set
      = region_paths.foldl (fun s p => AppendIfNotAlreadyThere s (lib, p)) [] := by
    simp only [FetchOrCreateInstrument]
    exact fetchRegionsLoop_set lib region_paths store []
  have hnodup : (FetchOrCreateInstrument store lib inst_name
      region_paths).2.1.audio_data_set.Nodup := by
    rw [hset]; exact setFold_nodup lib region_paths [] List.nodup_nil
  have hmem : ∀ k : String × String,
      k ∈ (FetchOrCreateInstrument store lib inst_name region_paths).2.1.audio_data_set
        ↔ k.1 = lib ∧ k.2 ∈ region_paths := by
    intro k
    rw [hset]
    have := setFold_mem lib region_paths [] k
    simpa using this
  have hstore : (FetchOrCreateInstrument store lib inst_name region_paths).1
      = bumpAudioRefs (fetchRegionsLoop lib region_paths store []).1
          (fetchRegionsLoop lib region_paths store []).2.1 := by
    simp only [FetchOrCreateInstrument]
  refine ⟨?_, hnodup, hmem, ?_, ?_, ?_, ?_⟩
  · simp only [FetchOrCreateInstrument, List.length_map]
  · rw [hset]; exact setFold_length_dedup lib region_paths
  · intro p hp
    rw [hstore]
    have hmemset : (lib, p) ∈ (fetchRegionsLoop lib region_paths store []).2.1 := by
      have := hmem (lib, p)
      rw [hset] at this
      rw [fetchRegionsLoop_set lib region_paths store []]
      exact this.mpr ⟨rfl, hp⟩
    have hnd : (fetchRegionsLoop lib region_paths store []).2.1.Nodup := by
      have := hnodup
      rw [hset] at this
      rw [fetchRegionsLoop_set lib region_paths store []]
      exact this
    rw [audioRefsOf_bump_mem _ _ _ _ hnd hmemset
        (audioPresent_after_fetchRegionsLoop lib region_paths store [] p hp),
      audioRefsOf_fetchRegionsLoop]
  · intro a b hab
    rw [hstore]
    have hnotmem : (a, b) ∉ (fetchRegionsLoop lib region_paths store []).2.1 := by
      intro hcontra
      rw [fetchRegionsLoop_set lib region_paths store []] at hcontra
      have := hmem (a, b)
      rw [hset] at this
      exact hab (this.mp hcontra)
    rw [audioRefsOf_bump_notmem _ _ _ _ hnotmem, audioRefsOf_fetchRegionsLoop]
  · intro store2 hall
    exact awaiting_audio_all_completed store2 _ hall

/-- Witness for C3: the spec's scenario of 4 regions sharing 2 distinct
files: `audio_datas.size == 4`, distinct-buffer count 2, and the shared
file's reference count rises by exactly one. -/
theorem fetch_or_create_instrument_spec_witness :
    (FetchOrCreateInstrument [] "Lib" "I" ["a", "b", "a", "b"]).2.1.audio_datas.length
        = 4 ∧
      (FetchOrCreateInstrument [] "Lib" "I"
          ["a", "b", "a", "b"]).2.1.audio_data_set.length = 2 ∧
      ("a" ∈ ["a", "b", "a", "b"] ∧
        audioRefsOf (FetchOrCreateInstrument [] "Lib" "I" ["a", "b", "a", "b"]).1 "Lib" "a"
          = audioRefsOf [] "Lib" "a" + 1) :=
  ⟨(fetch_or_create_instrument_spec [] "Lib" "I" ["a", "b", "a", "b"]).1,
   ((fetch_or_create_instrument_spec [] "Lib" "I" ["a", "b", "a", "b"]).2.2.2.1).trans
     (by decide),
   ⟨by decide,
    (fetch_or_create_instrument_spec [] "Lib" "I" ["a", "b", "a", "b"]).2.2.2.2.1 "a"
      (by decide)⟩⟩
